import Mathlib

/-!
# Verification of the printer TUI core

Shallow embedding of the job-reconciliation, navigation, viewport and
staging logic of the printer queue manager, translated from the Go
sources (`main.go`, `queue_render.go`, `scrollable.go`,
`print_commands.go`, and the operation/tracker files).

Conventions of the embedding:
* Go `int` becomes `Int` (the values involved stay far below 2^63, and
  the code relies on signed arithmetic — cursors can go negative).
* `time.Time` fields (`StartedAt`, `UpdatedAt`, `AddedAt`) are omitted:
  no branch of the verified logic reads them.
* Go's `error` value on an operation becomes `Option String`.
* `map[string]bool` (used only with `true` values and `delete`) is
  modelled as the list of keys currently set.
-/

/-- Operation status, from `print_commands.go`
(`StatusPending`, `StatusSending`, `StatusSent`, `StatusFailed`,
`StatusCanceled`). -/
inductive PrintStatus where
  | pending
  | sending
  | sent
  | failed
  | canceled
deriving DecidableEq

/-- A spooler-reported job: `PrintJob` in `main.go` (`ID`, `FileName`,
`FilePath`, `Size`, `Status`). -/
structure PrintJob where
  id : String
  fileName : String
  filePath : String
  size : Int
  status : String
deriving DecidableEq

/-- A locally tracked print operation: `PrintOperation` (`ID`, `FilePath`,
`FileName`, `Status`, `Error`, `SystemJobID`; the two timestamps are
omitted, see the header). -/
structure PrintOperation where
  id : String
  filePath : String
  fileName : String
  status : PrintStatus
  error : Option String
  systemJobID : String
deriving DecidableEq

/-- `PrintStatusMsg` from `print_commands.go` (`FileID`, `Status`,
`SystemJobID`, `Error`). -/
structure PrintStatusMsg where
  fileID : String
  status : PrintStatus
  systemJobID : String
  error : Option String
deriving DecidableEq

/-- The `hasSystemJob` test computed (inline, identically) at every
reconciliation site: the operation has a non-empty `SystemJobID` that
matches some currently reported spooler job
(`if op.SystemJobID != "" { for _, job := range jobs { if job.ID == op.SystemJobID ... } }`). -/
def hasSystemJob (jobs : List PrintJob) (op : PrintOperation) : Bool :=
  op.systemJobID != "" && jobs.any (fun job => job.id == op.systemJobID)

/-- `getActualJobCount` (main.go): `count := len(m.jobs)` then one `count++`
per operation with `!hasSystemJob && op.Status != StatusSent`. -/
def getActualJobCount (jobs : List PrintJob) (ops : List PrintOperation) : Nat :=
  ops.foldl
    (fun count op =>
      if !hasSystemJob jobs op && op.status != PrintStatus.sent then count + 1 else count)
    jobs.length

/-- The deduplicated-count loop at the top of `renderQueueContent`
(queue_render.go): `totalJobs := len(m.jobs)` then one `totalJobs++` per
operation with `!hasSystemJob && op.Status != StatusSent`.  Textually the
same algorithm as `getActualJobCount`, re-derived at the render site. -/
def renderTotalJobs (jobs : List PrintJob) (ops : List PrintOperation) : Nat :=
  ops.foldl
    (fun totalJobs op =>
      if !hasSystemJob jobs op && op.status != PrintStatus.sent then totalJobs + 1 else totalJobs)
    jobs.length

/-- The subsequence of operations that the untethered loops (the second
loop of the `x` handler in `main.go`, and the count loop above) walk:
operations with no matching current spooler job and status other than
`Sent`. -/
def untetheredOps (jobs : List PrintJob) (ops : List PrintOperation) : List PrintOperation :=
  ops.filter (fun op => !hasSystemJob jobs op && op.status != PrintStatus.sent)

/-- One reconciled line of the active-jobs section: either a
spooler-reported job (possibly enriched for display with tracking data)
or an untethered local print operation. -/
inductive QueueEntry where
  | job (j : PrintJob)
  | op (o : PrintOperation)
deriving DecidableEq

/-- The index-to-entry mapping walked by the `x` handler in
`updateQueuePane` (main.go): the first loop visits the spooler jobs in
order, the second loop visits, in order, the operations with
`!hasSystemJob && op.Status != StatusSent`. -/
def xEntries (jobs : List PrintJob) (ops : List PrintOperation) : List QueueEntry :=
  jobs.map QueueEntry.job ++ (untetheredOps jobs ops).map QueueEntry.op

/-- The `printOpsByJobID` map of `renderQueueContent` (queue_render.go),
built by inserting every operation with a non-empty `SystemJobID` keyed by
that ID (later insertions overwrite), then looked up at `job.ID`: the
result is the last operation whose non-empty `SystemJobID` equals the
given ID. -/
def printOpsByJobID (ops : List PrintOperation) (jobID : String) : Option PrintOperation :=
  (ops.filter (fun op => op.systemJobID != "" && op.systemJobID == jobID)).getLast?

/-- The `shownOpIDs` set of `renderQueueContent`: while rendering the
spooler jobs, the ID of the map hit for each job is recorded. -/
def shownOpIDs (jobs : List PrintJob) (ops : List PrintOperation) : List String :=
  jobs.filterMap (fun job => (printOpsByJobID ops job.id).map (fun op => op.id))

/-- The entry list produced by the two display loops of
`renderQueueContent` (queue_render.go): every spooler job in order, then
every operation that is not in `shownOpIDs`, whose non-empty
`SystemJobID` does not match a current job, and whose status is not
`Sent`. -/
def renderEntries (jobs : List PrintJob) (ops : List PrintOperation) : List QueueEntry :=
  jobs.map QueueEntry.job ++
    (ops.filter (fun op =>
      !(shownOpIDs jobs ops).contains op.id &&
      !(op.systemJobID != "" && jobs.any (fun job => job.id == op.systemJobID)) &&
      op.status != PrintStatus.sent)).map QueueEntry.op

/-- The cleanup of `Update (case jobsRefreshedMsg)` (main.go): keep an
operation iff its `SystemJobID` matches a job in the fresh spooler list,
or its status is `Failed`, `Canceled`, `Pending` or `Sending`. -/
def cleanOps (jobs : List PrintJob) (ops : List PrintOperation) : List PrintOperation :=
  ops.filter (fun op =>
    (op.systemJobID != "" && jobs.any (fun job => job.id == op.systemJobID)) ||
    (op.status == PrintStatus.failed || op.status == PrintStatus.canceled ||
     op.status == PrintStatus.pending || op.status == PrintStatus.sending))

/-- `Update (case PrintStatusMsg)` (main.go): the first operation whose
`ID` equals `msg.FileID` gets `Status`/`Error` overwritten and, when the
message carries a non-empty `SystemJobID`, that field set; the loop then
breaks.  No match leaves the list untouched. -/
def applyPrintStatus (ops : List PrintOperation) (msg : PrintStatusMsg) : List PrintOperation :=
  match ops with
  | [] => []
  | op :: rest =>
    if op.id == msg.fileID then
      { op with
        status := msg.status
        error := msg.error
        systemJobID := if msg.systemJobID != "" then msg.systemJobID else op.systemJobID } :: rest
    else
      op :: applyPrintStatus rest msg

/-- The inner tracking-cancel loop of the `x` handler when a system job is
at the cursor: the first operation whose `SystemJobID` equals the job's ID
is set to `Canceled` (then `break`). -/
def cancelTrackingOp (jobID : String) : List PrintOperation → List PrintOperation
  | [] => []
  | op :: rest =>
    if op.systemJobID == jobID then { op with status := PrintStatus.canceled } :: rest
    else op :: cancelTrackingOp jobID rest

/-- The second (untethered-operations) loop of the `x` handler
(main.go): walks the operations keeping a running `itemIndex` that only
advances on untethered operations; at `itemIndex == cursor` a
`Sending`/`Pending` operation is set to `Canceled` in place, a
`Failed`/`Canceled` operation is removed (the `Bool` of the result records
a removal), and the loop breaks. -/
def xOpsGo (jobs : List PrintJob) (cursor : Int) :
    List PrintOperation → Int → List PrintOperation × Bool
  | [], _ => ([], false)
  | op :: rest, idx =>
    if !hasSystemJob jobs op && op.status != PrintStatus.sent then
      if idx = cursor then
        if op.status = PrintStatus.sending ∨ op.status = PrintStatus.pending then
          ({ op with status := PrintStatus.canceled } :: rest, false)
        else if op.status = PrintStatus.failed ∨ op.status = PrintStatus.canceled then
          (rest, true)
        else
          (op :: rest, false)
      else
        let r := xOpsGo jobs cursor rest (idx + 1)
        (op :: r.1, r.2)
    else
      let r := xOpsGo jobs cursor rest idx
      (op :: r.1, r.2)

/-- The full `x` action on the active section (`updateQueuePane`,
main.go): the first loop hits when the cursor addresses a spooler job
(the external cancel is recorded as the returned job ID, and the
tracking operation matching that job ID is set to `Canceled`); otherwise
the untethered loop runs starting with `itemIndex = len(jobs)`, and after
a removal the cursor is re-clamped against the freshly recomputed
`getActualJobCount`.  Result: the new operations list, the new cursor,
and the system job ID cancelled externally, if any. -/
def xActive (jobs : List PrintJob) (ops : List PrintOperation) (cursor : Int) :
    List PrintOperation × Int × Option String :=
  if 0 ≤ cursor ∧ cursor < (jobs.length : Int) then
    match jobs[cursor.toNat]? with
    | some job => (cancelTrackingOp job.id ops, cursor, some job.id)
    | none => (ops, cursor, none)
  else
    let r := xOpsGo jobs cursor ops (jobs.length : Int)
    if r.2 then
      if cursor ≥ (getActualJobCount jobs r.1 : Int) ∧ cursor > 0 then
        (r.1, cursor - 1, none)
      else
        (r.1, cursor, none)
    else
      (r.1, cursor, none)

/-- `LayoutMode` (main.go): `LayoutSingle`, `LayoutHorizontal`,
`LayoutVertical`. -/
inductive LayoutMode where
  | single
  | horizontal
  | vertical
deriving DecidableEq

/-- `ActivePane` (main.go): `PaneQueue`, `PaneFiles`. -/
inductive ActivePane where
  | queue
  | files
deriving DecidableEq

/-- `QueueSection` (main.go): `SectionActive`, `SectionStaged`. -/
inductive QueueSection where
  | active
  | staged
deriving DecidableEq

/-- `FileFocus` (main.go): `FocusInput`, `FocusFileList`. -/
inductive FileFocus where
  | input
  | fileList
deriving DecidableEq

/-- `StagedFile` (main.go): `Name`, `Path`, `StagedFrom`, `Size`,
`Copies`, `PendingRemove` (`AddedAt` omitted, see the header). -/
structure StagedFile where
  name : String
  path : String
  stagedFrom : String
  size : Int
  copies : Int
  pendingRemove : Bool
deriving DecidableEq

/-- The navigation fields of `model` (main.go) touched by the queue-pane
cursor keys.  `getRelativeStagedFiles` returns `m.stagedFiles`
unchanged, so the staged list itself is passed as a parameter where the
handlers consult it. -/
structure NavState where
  layoutMode : LayoutMode
  activePane : ActivePane
  fileFocus : FileFocus
  queueSection : QueueSection
  activeCursor : Int
  stagedCursor : Int
deriving DecidableEq

/-- `updateQueuePane` case `"up"`/`"k"` (main.go).  The
`resetStagedPendingRemove` calls mutate only the staged files'
`PendingRemove`/`Copies` fields, never the navigation fields modelled
here. -/
def queueUp (jobs : List PrintJob) (ops : List PrintOperation) (s : NavState) : NavState :=
  match s.queueSection with
  | QueueSection.active =>
    if s.activeCursor > 0 then { s with activeCursor := s.activeCursor - 1 } else s
  | QueueSection.staged =>
    if s.stagedCursor > 0 then { s with stagedCursor := s.stagedCursor - 1 }
    else
      if (getActualJobCount jobs ops : Int) > 0 then
        { s with queueSection := QueueSection.active,
                 activeCursor := (getActualJobCount jobs ops : Int) - 1 }
      else
        { s with queueSection := QueueSection.active }

/-- `updateQueuePane` case `"down"`/`"j"` (main.go).  The focus move to
the files pane also calls `m.textInput.Focus()`; the text input's
internal state is outside this embedding. -/
def queueDown (jobs : List PrintJob) (ops : List PrintOperation) (staged : List StagedFile)
    (s : NavState) : NavState :=
  match s.queueSection with
  | QueueSection.active =>
    if s.activeCursor < (getActualJobCount jobs ops : Int) - 1 then
      { s with activeCursor := s.activeCursor + 1 }
    else if staged.length > 0 then
      { s with queueSection := QueueSection.staged, stagedCursor := 0 }
    else if s.layoutMode ≠ LayoutMode.single then
      { s with activePane := ActivePane.files, fileFocus := FileFocus.input }
    else s
  | QueueSection.staged =>
    if s.stagedCursor < (staged.length : Int) - 1 then
      { s with stagedCursor := s.stagedCursor + 1 }
    else if s.layoutMode ≠ LayoutMode.single then
      { s with activePane := ActivePane.files, fileFocus := FileFocus.input }
    else s

/-- `updateQueuePane` case `"pgup"`/`"ctrl+u"` (main.go): step the cursor
up by 5; in the staged section a step past the start switches to the
active section at cursor 0 — but only when `len(m.jobs) > 0` — otherwise
the staged cursor is clamped to 0. -/
def queuePgUp (jobs : List PrintJob) (s : NavState) : NavState :=
  match s.queueSection with
  | QueueSection.active =>
    if s.activeCursor - 5 < 0 then { s with activeCursor := 0 }
    else { s with activeCursor := s.activeCursor - 5 }
  | QueueSection.staged =>
    if s.stagedCursor - 5 < 0 then
      if (jobs.length : Int) > 0 then
        { s with queueSection := QueueSection.active, activeCursor := 0 }
      else
        { s with stagedCursor := 0 }
    else
      { s with stagedCursor := s.stagedCursor - 5 }

/-- `updateQueuePane` case `"pgdown"`/`"ctrl+d"` (main.go): step the
cursor down by 5; in the active section a step past the end switches to
the staged section at cursor 0 when staged files exist, otherwise the
active cursor is set to `len(m.jobs) - 1` (note: `len(m.jobs)`, not the
deduplicated count computed two lines above). -/
def queuePgDown (jobs : List PrintJob) (ops : List PrintOperation) (staged : List StagedFile)
    (s : NavState) : NavState :=
  match s.queueSection with
  | QueueSection.active =>
    if s.activeCursor + 5 ≥ (getActualJobCount jobs ops : Int) then
      if staged.length > 0 then
        { s with queueSection := QueueSection.staged, stagedCursor := 0 }
      else
        { s with activeCursor := (jobs.length : Int) - 1 }
    else
      { s with activeCursor := s.activeCursor + 5 }
  | QueueSection.staged =>
    if s.stagedCursor + 5 ≥ (staged.length : Int) then
      if (staged.length : Int) - 1 < 0 then { s with stagedCursor := 0 }
      else { s with stagedCursor := (staged.length : Int) - 1 }
    else
      { s with stagedCursor := s.stagedCursor + 5 }

/-- `ScrollableArea` (scrollable.go).  The Go `SetContent` receives a
string and splits it on newlines; the embedding stores the resulting
line list directly. -/
structure ScrollableArea where
  content : List String
  width : Int
  height : Int
  scrollOffset : Int
  showScrollbar : Bool
deriving DecidableEq

/-- `len(s.content)` as the `Int` the Go comparisons use. -/
def totalLines (s : ScrollableArea) : Int := (s.content.length : Int)

/-- `NewScrollableArea` (scrollable.go). -/
def NewScrollableArea (width height : Int) : ScrollableArea :=
  { content := [], width := width, height := height, scrollOffset := 0, showScrollbar := false }

/-- `SetContent` (scrollable.go): store the lines, recompute
`showScrollbar`, and reset the offset to 0 only when it is at or past
the new line count. -/
def SetContent (s : ScrollableArea) (lines : List String) : ScrollableArea :=
  { s with
    content := lines
    showScrollbar := (lines.length : Int) > s.height
    scrollOffset := if s.scrollOffset ≥ (lines.length : Int) then 0 else s.scrollOffset }

/-- `ScrollUp` (scrollable.go). -/
def ScrollUp (s : ScrollableArea) (n : Int) : ScrollableArea :=
  { s with scrollOffset :=
      if s.scrollOffset - n < 0 then 0 else s.scrollOffset - n }

/-- `ScrollDown` (scrollable.go). -/
def ScrollDown (s : ScrollableArea) (n : Int) : ScrollableArea :=
  { s with scrollOffset :=
      if s.scrollOffset + n >
          (if totalLines s - s.height < 0 then 0 else totalLines s - s.height) then
        (if totalLines s - s.height < 0 then 0 else totalLines s - s.height)
      else s.scrollOffset + n }

/-- `ScrollToTop` (scrollable.go). -/
def ScrollToTop (s : ScrollableArea) : ScrollableArea :=
  { s with scrollOffset := 0 }

/-- `ScrollToBottom` (scrollable.go). -/
def ScrollToBottom (s : ScrollableArea) : ScrollableArea :=
  { s with scrollOffset :=
      if totalLines s - s.height < 0 then 0 else totalLines s - s.height }

/-- `ScrollToLine` (scrollable.go): bring `line` into view, then clamp
the offset to `[0, max(0, totalLines - height)]`. -/
def ScrollToLine (s : ScrollableArea) (line : Int) : ScrollableArea :=
  { s with scrollOffset :=
      let o1 :=
        if line < s.scrollOffset then line
        else if line ≥ s.scrollOffset + s.height then line - s.height + 1
        else s.scrollOffset
      let maxOffset := if totalLines s - s.height < 0 then 0 else totalLines s - s.height
      let o2 := if o1 > maxOffset then maxOffset else o1
      if o2 < 0 then 0 else o2 }

/-- The viewport operations the spec's offset invariant quantifies
over. -/
inductive VOp where
  | setContent (lines : List String)
  | scrollUp (n : Int)
  | scrollDown (n : Int)
  | scrollToTop
  | scrollToBottom
  | scrollToLine (n : Int)
deriving DecidableEq

/-- Dispatch a viewport operation. -/
def applyVOp (s : ScrollableArea) : VOp → ScrollableArea
  | VOp.setContent lines => SetContent s lines
  | VOp.scrollUp n => ScrollUp s n
  | VOp.scrollDown n => ScrollDown s n
  | VOp.scrollToTop => ScrollToTop s
  | VOp.scrollToBottom => ScrollToBottom s
  | VOp.scrollToLine n => ScrollToLine s n

/-- The offset invariant claimed by the spec:
`offset ∈ [0, max(0, totalLines - height)]`. -/
def offsetInBounds (s : ScrollableArea) : Prop :=
  0 ≤ s.scrollOffset ∧ s.scrollOffset ≤ max 0 (totalLines s - s.height)

instance (s : ScrollableArea) : Decidable (offsetInBounds s) := by
  unfold offsetInBounds; infer_instance

/-- Truncation toward zero, as Go's float-to-int conversion `int(x)`
performs. -/
def ratTrunc (q : ℚ) : Int :=
  if q < 0 then -(Int.floor (-q)) else Int.floor q

/-- `trackEnd - trackStart` of `getScrollbarChar` (scrollable.go), with
`trackStart = 1` and `trackEnd = height - 1`. -/
def sbTrackHeight (s : ScrollableArea) : Int := (s.height - 1) - 1

/-- The thumb size computed inside `getScrollbarChar` (scrollable.go):
`max(1, trackHeight*visibleLines/totalLines)` clamped to the track
height (integer division; all operands are positive whenever the code
reaches this point). -/
def sbThumbSize (s : ScrollableArea) : Int :=
  if max 1 ((sbTrackHeight s * s.height) / totalLines s) > sbTrackHeight s then
    sbTrackHeight s
  else
    max 1 ((sbTrackHeight s * s.height) / totalLines s)

/-- The thumb top position computed inside `getScrollbarChar`
(scrollable.go): `trackStart + int(scrollRatio*float64(maxThumbPos-trackStart))`
followed by the two bound checks.  The Go code computes `scrollRatio`
and the product in `float64`; the embedding uses exact rational
arithmetic with Go's truncating conversion. -/
def sbThumbPos (s : ScrollableArea) : Int :=
  let maxThumbPos := (s.height - 1) - sbThumbSize s
  let raw := 1 + ratTrunc (((s.scrollOffset : ℚ) / ((totalLines s - s.height : Int) : ℚ)) *
      ((maxThumbPos - 1 : Int) : ℚ))
  let p1 := if raw < 1 then 1 else raw
  if p1 + sbThumbSize s > s.height - 1 then (s.height - 1) - sbThumbSize s else p1

/-- The glyph classes `getScrollbarChar` can produce (styling dropped). -/
inductive SbChar where
  | blank
  | upArrow (active : Bool)
  | downArrow (active : Bool)
  | track
  | thumb
deriving DecidableEq

/-- `getScrollbarChar` (scrollable.go), per line: arrows on the first and
last line, plain track for tiny heights or a degenerate track, full-track
thumb when the content fits, otherwise the proportional thumb of
`sbThumbPos`/`sbThumbSize` within the track. -/
def getScrollbarChar (s : ScrollableArea) (lineIndex : Int) : SbChar :=
  if s.showScrollbar = false then SbChar.blank
  else if lineIndex = 0 then SbChar.upArrow (s.scrollOffset > 0)
  else if lineIndex = s.height - 1 then SbChar.downArrow (s.scrollOffset + s.height < totalLines s)
  else if s.height ≤ 4 then SbChar.track
  else if (1 : Int) ≥ s.height - 1 then SbChar.track
  else if totalLines s - s.height ≤ 0 then
    if 1 ≤ lineIndex ∧ lineIndex < s.height - 1 then SbChar.thumb else SbChar.track
  else if (1 ≤ lineIndex ∧ lineIndex < s.height - 1) ∧
      (sbThumbPos s ≤ lineIndex ∧ lineIndex < sbThumbPos s + sbThumbSize s) then
    SbChar.thumb
  else SbChar.track

/-- `FileItem` (main.go): `Name`, `Path`, `IsDir`, `IsPrintable`,
`Size`. -/
structure FileItem where
  name : String
  path : String
  isDir : Bool
  isPrintable : Bool
  size : Int
deriving DecidableEq

/-- One `os.FileInfo` of a `ReadDir` result, as consumed by the
directory branch of the space handler: name, directory flag, size. -/
structure DirEntry where
  name : String
  isDir : Bool
  size : Int
deriving DecidableEq

/-- The staging fields of `model` (main.go): the staged-files list and
the `markedFiles` map (modelled as its list of keys, see the header). -/
structure StagingState where
  stagedFiles : List StagedFile
  markedFiles : List String
deriving DecidableEq

/-- `m.markedFiles[path] = true`: a map insert (no duplicate keys). -/
def markSet (marked : List String) (path : String) : List String :=
  if marked.contains path then marked else marked ++ [path]

/-- `delete(m.markedFiles, path)`. -/
def markDel (marked : List String) (path : String) : List String :=
  marked.filter (fun q => q ≠ path)

/-- The backward removal loop used by the unmark handlers (main.go):
`for i := len(staged)-1; i >= 0; i-- { if staged[i].Path == path { remove; break } }` —
the last entry with the path is removed. -/
def removeLastStaged (staged : List StagedFile) (path : String) : List StagedFile :=
  (staged.reverse.eraseP (fun f => f.path == path)).reverse

/-- The extension scan of `filepath.Ext` restricted to a file name: walk
the name from its end; a `.` starts the extension, a path separator or
the start of the string means there is none. -/
def extFromRev (acc : List Char) : List Char → List Char
  | [] => []
  | c :: rest =>
    if c = '/' then []
    else if c = '.' then '.' :: acc
    else extFromRev (c :: acc) rest

/-- The printable-extension test of `loadDirectory`/`updateFilesPane`
(main.go): lower-cased `filepath.Ext(name)` against `printableExts`. -/
def isPrintableName (name : String) : Bool :=
  let ext := (String.mk (extFromRev [] name.toList.reverse)).toLower
  [".pdf", ".txt", ".doc", ".docx", ".jpg", ".jpeg", ".png", ".gif"].contains ext

/-- `getDirectoryStatus` (main.go): count, from the model state alone,
the marked files directly inside `dirPath` (each counts toward
`totalPrintable` and `stagedCount`), then the print operations directly
inside `dirPath` (new paths count toward `totalPrintable`;
`Sending`/`Pending` ones toward `printingCount`). -/
def getDirectoryStatus (marked : List String) (ops : List PrintOperation) (dirPath : String) :
    Int × Int × Int :=
  let dirPref := dirPath ++ "/"
  let afterMarked :=
    marked.foldl
      (fun (acc : List String × Int × Int × Int) path =>
        if dirPref.isPrefixOf path ∧
            ¬ (path.drop dirPref.length).contains '/' then
          (path :: acc.1, acc.2.1 + 1, acc.2.2.1 + 1, acc.2.2.2)
        else acc)
      ([], 0, 0, 0)
  let afterOps :=
    ops.foldl
      (fun (acc : List String × Int × Int × Int) op =>
        if dirPref.isPrefixOf op.filePath ∧
            ¬ (op.filePath.drop dirPref.length).contains '/' then
          let acc1 :=
            if acc.1.contains op.filePath then acc
            else (op.filePath :: acc.1, acc.2.1 + 1, acc.2.2.1, acc.2.2.2)
          if op.status = PrintStatus.sending ∨ op.status = PrintStatus.pending then
            (acc1.1, acc1.2.1, acc1.2.2.1, acc1.2.2.2 + 1)
          else acc1
        else acc)
      afterMarked
  (afterOps.2.1, afterOps.2.2.1, afterOps.2.2.2)

/-- The single staged-file record every staging site appends
(`StagedFile{Name: ..., Path: ..., StagedFrom: ..., Size: ..., Copies: 1}`;
`PendingRemove` is the zero value `false`). -/
def newStagedFile (name path stagedFrom : String) (size : Int) : StagedFile :=
  { name := name, path := path, stagedFrom := stagedFrom, size := size,
    copies := 1, pendingRemove := false }

/-- `updateFilesPane` case `" "` (main.go), file list focused: dispatch
on the item under the cursor.  `TOGGLE_ALL` toggles every printable file
of the listing; a directory toggles the files of that directory (the
`ReadDir` result is the `entries` parameter); a printable file is
marked/unmarked individually.  `ops` feeds `getDirectoryStatus`. -/
def applySpace (ops : List PrintOperation) (files : List FileItem) (fileCursor : Int)
    (entries : List DirEntry) (currentDir : String) (st : StagingState) : StagingState :=
  if 0 ≤ fileCursor ∧ fileCursor < (files.length : Int) then
    match files[fileCursor.toNat]? with
    | none => st
    | some file =>
      if file.path = "TOGGLE_ALL" then
        if files.all (fun f => !f.isPrintable || st.markedFiles.contains f.path) then
          { stagedFiles := st.stagedFiles.filter (fun f => !st.markedFiles.contains f.path),
            markedFiles := [] }
        else
          files.foldl
            (fun acc f =>
              if f.isPrintable ∧ ¬ acc.markedFiles.contains f.path then
                { markedFiles := markSet acc.markedFiles f.path,
                  stagedFiles := acc.stagedFiles ++ [newStagedFile f.name f.path currentDir f.size] }
              else acc)
            st
      else if file.isDir then
        if (getDirectoryStatus st.markedFiles ops file.path).1 > 0 then
          if (getDirectoryStatus st.markedFiles ops file.path).2.1 =
              (getDirectoryStatus st.markedFiles ops file.path).1 then
            entries.foldl
              (fun acc e =>
                if ¬ e.isDir then
                  { markedFiles := markDel acc.markedFiles (file.path ++ "/" ++ e.name),
                    stagedFiles :=
                      acc.stagedFiles.filter (fun f => f.path ≠ file.path ++ "/" ++ e.name) }
                else acc)
              st
          else
            entries.foldl
              (fun acc e =>
                if ¬ e.isDir ∧ isPrintableName e.name ∧
                    ¬ acc.markedFiles.contains (file.path ++ "/" ++ e.name) then
                  { markedFiles := markSet acc.markedFiles (file.path ++ "/" ++ e.name),
                    stagedFiles := acc.stagedFiles ++
                      [newStagedFile e.name (file.path ++ "/" ++ e.name) file.path e.size] }
                else acc)
              st
        else st
      else if file.isPrintable then
        if st.markedFiles.contains file.path then
          { markedFiles := markDel st.markedFiles file.path,
            stagedFiles := removeLastStaged st.stagedFiles file.path }
        else
          { markedFiles := markSet st.markedFiles file.path,
            stagedFiles := st.stagedFiles ++ [newStagedFile file.name file.path currentDir file.size] }
      else st
  else st

/-- `Update` case `"X"` (main.go): unmark every staged file, then clear
the staged list. -/
def applyClearAll (st : StagingState) : StagingState :=
  { markedFiles := st.stagedFiles.foldl (fun mk f => markDel mk f.path) st.markedFiles,
    stagedFiles := [] }

/-- The staging effect of `Update` case `"P"` (main.go): each staged file
is promoted to a print operation (that list lives outside this record)
and unmarked, then the staged list is cleared; when nothing is staged the
handler does nothing, which has the same effect on these two fields. -/
def applySubmitAll (st : StagingState) : StagingState :=
  { markedFiles := st.stagedFiles.foldl (fun mk f => markDel mk f.path) st.markedFiles,
    stagedFiles := [] }

/-- `updateFilesPane` case `"x"` (main.go), file list focused: unmark the
printable, marked file at the cursor and drop its staged entry. -/
def applyUnmarkX (files : List FileItem) (fileCursor : Int) (st : StagingState) : StagingState :=
  if 0 ≤ fileCursor ∧ fileCursor < (files.length : Int) then
    match files[fileCursor.toNat]? with
    | none => st
    | some file =>
      if file.isPrintable && st.markedFiles.contains file.path then
        { markedFiles := markDel st.markedFiles file.path,
          stagedFiles := removeLastStaged st.stagedFiles file.path }
      else st
  else st

/-- The staging-relevant key events of the claim: space (mark / stage /
select-all toggle / directory toggle), `X` (clear all), `P` (submit all)
and `x` in the files pane (unmark). -/
inductive StageEvent where
  | spaceKey (files : List FileItem) (fileCursor : Int) (entries : List DirEntry)
      (currentDir : String)
  | clearAll
  | submitAll
  | unmarkX (files : List FileItem) (fileCursor : Int)
deriving DecidableEq

/-- Dispatch a staging event. -/
def applyStageEvent (ops : List PrintOperation) (st : StagingState) :
    StageEvent → StagingState
  | StageEvent.spaceKey files fileCursor entries currentDir =>
    applySpace ops files fileCursor entries currentDir st
  | StageEvent.clearAll => applyClearAll st
  | StageEvent.submitAll => applySubmitAll st
  | StageEvent.unmarkX files fileCursor => applyUnmarkX files fileCursor st

/-- The staging consistency invariant: a path has a staged entry iff it
is marked, and no path is staged twice. -/
def StagingConsistent (st : StagingState) : Prop :=
  (∀ p : String, (∃ f ∈ st.stagedFiles, f.path = p) ↔ p ∈ st.markedFiles) ∧
  (st.stagedFiles.map StagedFile.path).Nodup

theorem count_foldl_eq (p : PrintOperation → Bool) :
    ∀ (ops : List PrintOperation) (n : Nat),
      ops.foldl (fun count op => if p op then count + 1 else count) n
        = n + (ops.filter p).length := by
  intro ops
  induction ops with
  | nil => intro n; simp
  | cons op rest ih =>
    intro n
    by_cases h : p op
    · simp [List.foldl_cons, h, List.filter_cons, ih]
      omega
    · simp [List.foldl_cons, h, List.filter_cons, ih]

theorem getActualJobCount_eq (jobs : List PrintJob) (ops : List PrintOperation) :
    getActualJobCount jobs ops = jobs.length + (untetheredOps jobs ops).length :=
  count_foldl_eq _ ops jobs.length

theorem renderTotalJobs_eq (jobs : List PrintJob) (ops : List PrintOperation) :
    renderTotalJobs jobs ops = jobs.length + (untetheredOps jobs ops).length :=
  count_foldl_eq _ ops jobs.length

/-- A `Sent` operation whose spooler job has vanished (`jobs = []`), the
concrete instance of the spec's idempotent-disappearance test. -/
def opSent5 : PrintOperation := ⟨"op-5", "", "doc", PrintStatus.sent, none, "5"⟩

/-- C2: an operation with status `Sent` and no matching current spooler
job never appears among the entries walked by the `x` handler, nor among
the rendered entries, and is dropped by the refresh cleanup; in
particular with `ops = [{status: Sent, systemJobID: "5"}]` and
`jobs = []` the reconciled count is 0. -/
theorem sent_vanished_never_shown
    (jobs : List PrintJob) (ops : List PrintOperation) (op : PrintOperation)
    (hsent : op.status = PrintStatus.sent)
    (hnomatch : ∀ job ∈ jobs, job.id ≠ op.systemJobID) :
    QueueEntry.op op ∉ xEntries jobs ops ∧
    QueueEntry.op op ∉ renderEntries jobs ops ∧
    op ∉ cleanOps jobs ops ∧
    getActualJobCount [] [opSent5] = 0 := by
  refine ⟨?_, ?_, ?_, by decide⟩
  · intro hmem
    simp only [xEntries, untetheredOps, List.mem_append, List.mem_map, List.mem_filter] at hmem
    rcases hmem with ⟨j, _, hj⟩ | ⟨o, ⟨_, ho⟩, hoeq⟩
    · exact absurd hj (by simp)
    · have : o = op := by injection hoeq
      subst this
      simp [hsent] at ho
  · intro hmem
    simp only [renderEntries, List.mem_append, List.mem_map, List.mem_filter] at hmem
    rcases hmem with ⟨j, _, hj⟩ | ⟨o, ⟨_, ho⟩, hoeq⟩
    · exact absurd hj (by simp)
    · have : o = op := by injection hoeq
      subst this
      simp [hsent] at ho
  · intro hmem
    simp only [cleanOps, List.mem_filter] at hmem
    rcases hmem with ⟨_, hkeep⟩
    simp only [Bool.or_eq_true, Bool.and_eq_true, bne_iff_ne, List.any_eq_true,
      beq_iff_eq, hsent] at hkeep
    rcases hkeep with ⟨_, job, hjobs, hjid⟩ | h
    · exact hnomatch job hjobs hjid
    · simp at h

theorem sent_vanished_never_shown_w :
    QueueEntry.op opSent5 ∉ xEntries [] [opSent5] ∧
    getActualJobCount [] [opSent5] = 0 :=
  ⟨(sent_vanished_never_shown [] [opSent5] opSent5 rfl (by simp)).1,
   (sent_vanished_never_shown [] [] opSent5 rfl (by simp)).2.2.2⟩

/-- A tracked pending operation with no system job. -/
def opPendingA : PrintOperation := ⟨"a", "", "", PrintStatus.pending, none, ""⟩

/-- A status message addressed to an operation ID that is not tracked. -/
def msgForB : PrintStatusMsg := ⟨"b", PrintStatus.sent, "9", none⟩

/-- C6: a status event whose `opID` matches no tracked operation leaves
the operations list — the only model state the `PrintStatusMsg` handler
touches — unchanged. -/
theorem unknown_opID_dropped (ops : List PrintOperation) (msg : PrintStatusMsg)
    (h : ∀ op ∈ ops, op.id ≠ msg.fileID) :
    applyPrintStatus ops msg = ops := by
  induction ops with
  | nil => rfl
  | cons op rest ih =>
    have h1 : op.id ≠ msg.fileID := h op (by simp)
    have h2 : ∀ o ∈ rest, o.id ≠ msg.fileID := fun o ho => h o (by simp [ho])
    simp [applyPrintStatus, h1, ih h2]

theorem unknown_opID_dropped_w :
    applyPrintStatus [opPendingA] msgForB = [opPendingA] :=
  unknown_opID_dropped _ _ (by decide)

/-- A 100-line viewport of height 10, scrolled to the top. -/
def vp100 : ScrollableArea := ⟨List.replicate 100 "", 30, 10, 0, true⟩

/-- C7: after `ScrollToLine n` with `n` a line of the content, the line
is inside the window `[offset, offset + height)` whenever the content
overflows the viewport, and otherwise the offset is clamped to 0. -/
theorem scrollToLine_in_view (s : ScrollableArea) (n : Int)
    (hh : 0 < s.height) (hn0 : 0 ≤ n) (hn : n < totalLines s) :
    (s.height < totalLines s →
      (ScrollToLine s n).scrollOffset ≤ n ∧
        n < (ScrollToLine s n).scrollOffset + s.height) ∧
    (totalLines s ≤ s.height → (ScrollToLine s n).scrollOffset = 0) := by
  unfold ScrollToLine
  dsimp only
  split_ifs <;> refine ⟨fun h => ?_, fun h => ?_⟩ <;> omega

theorem scrollToLine_in_view_w :
    (0 : Int) < 10 ∧ (0 : Int) ≤ 55 ∧ (55 : Int) < totalLines vp100 ∧
      (45 : Int) ≤ (ScrollToLine vp100 55).scrollOffset ∧
      (ScrollToLine vp100 55).scrollOffset ≤ 55 ∧
      (55 : Int) < (ScrollToLine vp100 55).scrollOffset + 10 := by
  have h := (scrollToLine_in_view vp100 55 (by decide) (by decide) (by decide)).1 (by decide)
  have hh : vp100.height = 10 := rfl
  exact ⟨by decide, by decide, by decide, by omega, h.1, by omega⟩

/-- Argument sanity for a viewport operation: the scroll steps the code
ever passes are non-negative. -/
def vopArgNonneg : VOp → Prop
  | VOp.scrollUp n => 0 ≤ n
  | VOp.scrollDown n => 0 ≤ n
  | _ => True

/-- What each operation actually guarantees about the offset: the five
scroll operations keep it in `[0, max(0, totalLines - height)]`, while
`SetContent` only guarantees `[0, max(0, totalLines - 1)]`. -/
def vopOffsetAfter (s : ScrollableArea) (op : VOp) : Prop :=
  match op with
  | VOp.setContent _ =>
    0 ≤ (applyVOp s op).scrollOffset ∧
      (applyVOp s op).scrollOffset ≤ max 0 (totalLines (applyVOp s op) - 1)
  | _ => offsetInBounds (applyVOp s op)

/-- C8 (amended): starting from an in-bounds offset, every scroll
operation (with a non-negative step) lands in
`[0, max(0, totalLines - height)]`; `SetContent` only guarantees
`[0, max(0, totalLines - 1)]` — it resets the offset solely when the
offset is at or past the new line count. -/
theorem vop_offset_bounds (s : ScrollableArea) (op : VOp)
    (h : offsetInBounds s) (hn : vopArgNonneg op) : vopOffsetAfter s op := by
  obtain ⟨h0, h1⟩ := h
  simp only [totalLines] at h1
  cases op with
  | setContent lines =>
    simp only [vopOffsetAfter, applyVOp, SetContent, totalLines]
    constructor <;> split_ifs <;> omega
  | scrollUp n =>
    simp only [vopArgNonneg] at hn
    simp only [vopOffsetAfter, applyVOp, ScrollUp, offsetInBounds, totalLines]
    constructor <;> split_ifs <;> omega
  | scrollDown n =>
    simp only [vopArgNonneg] at hn
    simp only [vopOffsetAfter, applyVOp, ScrollDown, offsetInBounds, totalLines]
    constructor <;> split_ifs <;> omega
  | scrollToTop =>
    simp only [vopOffsetAfter, applyVOp, ScrollToTop, offsetInBounds, totalLines]
    constructor <;> omega
  | scrollToBottom =>
    simp only [vopOffsetAfter, applyVOp, ScrollToBottom, offsetInBounds, totalLines]
    constructor <;> split_ifs <;> omega
  | scrollToLine n =>
    simp only [vopOffsetAfter, applyVOp, offsetInBounds]
    unfold ScrollToLine
    dsimp only [totalLines]
    constructor <;> split_ifs <;> omega

/-- A 3-line viewport of height 2 scrolled to offset 1. -/
def vp3 : ScrollableArea := ⟨["a", "b", "c"], 5, 2, 1, true⟩

theorem vop_offset_bounds_w :
    offsetInBounds vp3 ∧ offsetInBounds (applyVOp vp3 (VOp.scrollDown 7)) :=
  ⟨by decide, vop_offset_bounds vp3 (VOp.scrollDown 7) (by decide) (by decide : (0 : Int) ≤ 7)⟩

/-- C8 counterexample: a reachable sequence of operations — load 100
lines, scroll down to offset 45, then load 50 lines — leaves the offset
at 45 while `max(0, totalLines - height) = 40`, so `SetContent` violates
the claimed clamp. -/
theorem setContent_breaks_offset_bound :
    ¬ offsetInBounds
      (applyVOp
        (applyVOp
          (applyVOp (NewScrollableArea 20 10) (VOp.setContent (List.replicate 100 "")))
          (VOp.scrollDown 45))
        (VOp.setContent (List.replicate 50 ""))) := by
  decide

theorem applyPrintStatus_length (ops : List PrintOperation) (msg : PrintStatusMsg) :
    (applyPrintStatus ops msg).length = ops.length := by
  induction ops with
  | nil => rfl
  | cons op rest ih =>
    simp only [applyPrintStatus]
    split_ifs <;> simp [ih]

theorem applyPrintStatus_sysID_step :
    ∀ (ops : List PrintOperation) (msg : PrintStatusMsg) (i : Nat) (op opNew : PrintOperation),
      ops[i]? = some op → (applyPrintStatus ops msg)[i]? = some opNew →
      opNew.systemJobID = op.systemJobID ∨
        (msg.systemJobID ≠ "" ∧ opNew.systemJobID = msg.systemJobID)
  | [], _, i, _, _, hop, _ => by simp at hop
  | hd :: rest, msg, 0, op, opNew, hop, hnew => by
    simp only [List.getElem?_cons_zero, Option.some_inj] at hop
    subst hop
    by_cases hid : (hd.id == msg.fileID) = true
    · simp only [applyPrintStatus, if_pos hid, List.getElem?_cons_zero, Option.some_inj] at hnew
      subst hnew
      by_cases hs : (msg.systemJobID != "") = true
      · right
        refine ⟨by simpa [bne_iff_ne] using hs, ?_⟩
        simp [hs]
      · left
        simp [hs]
    · simp only [applyPrintStatus, if_neg hid, List.getElem?_cons_zero, Option.some_inj] at hnew
      subst hnew
      left
      rfl
  | hd :: rest, msg, i + 1, op, opNew, hop, hnew => by
    simp only [List.getElem?_cons_succ] at hop
    by_cases hid : (hd.id == msg.fileID) = true
    · simp only [applyPrintStatus, if_pos hid, List.getElem?_cons_succ] at hnew
      rw [hop] at hnew
      left
      injection hnew with h
      rw [h]
    · simp only [applyPrintStatus, if_neg hid, List.getElem?_cons_succ] at hnew
      exact applyPrintStatus_sysID_step rest msg i op opNew hop hnew

theorem applyPrintStatus_keeps_sysID :
    ∀ (msgs : List PrintStatusMsg) (ops : List PrintOperation) (i : Nat) (op : PrintOperation),
      ops[i]? = some op → op.systemJobID ≠ "" →
      ∃ opNew, (msgs.foldl applyPrintStatus ops)[i]? = some opNew ∧ opNew.systemJobID ≠ ""
  | [], _, _, op, hop, hne => ⟨op, hop, hne⟩
  | msg :: msgs, ops, i, op, hop, hne => by
    have hi : i < ops.length := by
      by_contra hge
      rw [List.getElem?_eq_none (by omega)] at hop
      exact Option.noConfusion hop
    have hi2 : i < (applyPrintStatus ops msg).length := by
      rw [applyPrintStatus_length]
      exact hi
    have hop1 : (applyPrintStatus ops msg)[i]? = some ((applyPrintStatus ops msg)[i]) :=
      List.getElem?_eq_getElem hi2
    have hstep := applyPrintStatus_sysID_step ops msg i op _ hop hop1
    have hne1 : ((applyPrintStatus ops msg)[i]).systemJobID ≠ "" := by
      rcases hstep with h | ⟨h1, h2⟩
      · rw [h]; exact hne
      · rw [h2]; exact h1
    simpa only [List.foldl_cons] using
      applyPrintStatus_keeps_sysID msgs (applyPrintStatus ops msg) i _ hop1 hne1

/-- C4 (amended): the status-event handler never clears `systemJobID`:
each event either leaves an operation's `systemJobID` unchanged (when the
event carries an empty `SystemJobID`) or sets it to the event's non-empty
value, and once non-empty the field stays non-empty under any sequence of
events.  (At-most-once assignment does not hold: see the overwrite
counterexample.) -/
theorem systemJobID_never_cleared :
    (∀ (ops : List PrintOperation) (msg : PrintStatusMsg) (i : Nat) (op opNew : PrintOperation),
        ops[i]? = some op → (applyPrintStatus ops msg)[i]? = some opNew →
        opNew.systemJobID = op.systemJobID ∨
          (msg.systemJobID ≠ "" ∧ opNew.systemJobID = msg.systemJobID)) ∧
    (∀ (msgs : List PrintStatusMsg) (ops : List PrintOperation) (i : Nat) (op : PrintOperation),
        ops[i]? = some op → op.systemJobID ≠ "" →
        ∃ opNew, (msgs.foldl applyPrintStatus ops)[i]? = some opNew ∧ opNew.systemJobID ≠ "") :=
  ⟨applyPrintStatus_sysID_step, applyPrintStatus_keeps_sysID⟩

/-- An operation that already has a system job ID. -/
def opWithSys : PrintOperation := ⟨"a", "", "", PrintStatus.sent, none, "7"⟩

theorem systemJobID_never_cleared_w :
    opWithSys.systemJobID ≠ "" ∧
    (∃ opNew, ([msgForB].foldl applyPrintStatus [opWithSys])[0]? = some opNew ∧
      opNew.systemJobID ≠ "") :=
  ⟨by decide, systemJobID_never_cleared.2 [msgForB] [opWithSys] 0 opWithSys rfl (by decide)⟩

/-- A status event for operation `"a"` reporting system job `"1"`. -/
def msgSys1 : PrintStatusMsg := ⟨"a", PrintStatus.sent, "1", none⟩

/-- A second status event for operation `"a"` reporting system job `"2"`. -/
def msgSys2 : PrintStatusMsg := ⟨"a", PrintStatus.sent, "2", none⟩

/-- C4 counterexample: two status events for the same operation carrying
different non-empty `SystemJobID`s make the handler assign the field a
non-empty value twice, the second overwriting the first — refuting
at-most-once assignment and never-overwritten as claimed. -/
theorem systemJobID_overwritten :
    (applyPrintStatus [opPendingA] msgSys1).map PrintOperation.systemJobID = ["1"] ∧
    (applyPrintStatus (applyPrintStatus [opPendingA] msgSys1) msgSys2).map
      PrintOperation.systemJobID = ["2"] := by
  decide

theorem untetheredOps_cons (jobs : List PrintJob) (op : PrintOperation)
    (rest : List PrintOperation) :
    untetheredOps jobs (op :: rest) =
      if !hasSystemJob jobs op && op.status != PrintStatus.sent then
        op :: untetheredOps jobs rest
      else untetheredOps jobs rest := by
  simp only [untetheredOps, List.filter_cons]

theorem hasSystemJob_setStatus (jobs : List PrintJob) (op : PrintOperation)
    (st : PrintStatus) :
    hasSystemJob jobs { op with status := st } = hasSystemJob jobs op := rfl

theorem xOpsGo_cons (jobs : List PrintJob) (cursor : Int) (op : PrintOperation)
    (rest : List PrintOperation) (idx : Int) :
    xOpsGo jobs cursor (op :: rest) idx =
      if !hasSystemJob jobs op && op.status != PrintStatus.sent then
        if idx = cursor then
          if op.status = PrintStatus.sending ∨ op.status = PrintStatus.pending then
            ({ op with status := PrintStatus.canceled } :: rest, false)
          else if op.status = PrintStatus.failed ∨ op.status = PrintStatus.canceled then
            (rest, true)
          else
            (op :: rest, false)
        else
          (op :: (xOpsGo jobs cursor rest (idx + 1)).1, (xOpsGo jobs cursor rest (idx + 1)).2)
      else
        (op :: (xOpsGo jobs cursor rest idx).1, (xOpsGo jobs cursor rest idx).2) := by
  simp only [xOpsGo]

theorem xOpsGo_spec (jobs : List PrintJob) :
    ∀ (ops : List PrintOperation) (idx : Int) (k : Nat) (tgt : PrintOperation),
      (untetheredOps jobs ops)[k]? = some tgt →
      ((tgt.status = PrintStatus.sending ∨ tgt.status = PrintStatus.pending) →
        untetheredOps jobs (xOpsGo jobs (idx + (k : Int)) ops idx).1
            = (untetheredOps jobs ops).set k { tgt with status := PrintStatus.canceled } ∧
          (xOpsGo jobs (idx + (k : Int)) ops idx).1.length = ops.length ∧
          (xOpsGo jobs (idx + (k : Int)) ops idx).2 = false) ∧
      ((tgt.status = PrintStatus.failed ∨ tgt.status = PrintStatus.canceled) →
        untetheredOps jobs (xOpsGo jobs (idx + (k : Int)) ops idx).1
            = (untetheredOps jobs ops).eraseIdx k ∧
          (xOpsGo jobs (idx + (k : Int)) ops idx).1.length + 1 = ops.length ∧
          (xOpsGo jobs (idx + (k : Int)) ops idx).2 = true) := by
  intro ops
  induction ops with
  | nil =>
    intro idx k tgt h
    simp [untetheredOps] at h
  | cons op rest ih =>
    intro idx k tgt h
    rw [untetheredOps_cons] at h
    by_cases hp : (!hasSystemJob jobs op && op.status != PrintStatus.sent) = true
    · rw [if_pos hp] at h
      match k with
      | 0 =>
        rw [List.getElem?_cons_zero, Option.some_inj] at h
        subst h
        have hcur : idx + ((0 : Nat) : Int) = idx := by push_cast; ring
        rw [hcur, xOpsGo_cons, if_pos hp, if_pos rfl]
        constructor
        · intro hsp
          rw [if_pos hsp]
          refine ⟨?_, by simp, rfl⟩
          dsimp only
          rw [untetheredOps_cons, untetheredOps_cons, if_pos hp]
          have hp2 : (!hasSystemJob jobs { op with status := PrintStatus.canceled } &&
              ({ op with status := PrintStatus.canceled }).status != PrintStatus.sent) = true := by
            rw [hasSystemJob_setStatus]
            rcases Bool.and_eq_true .. |>.mp hp with ⟨hp1, _⟩
            simp [hp1]
          rw [if_pos hp2, List.set_cons_zero]
        · intro hfc
          have hns : ¬(op.status = PrintStatus.sending ∨ op.status = PrintStatus.pending) := by
            rcases hfc with h1 | h1 <;> rw [h1] <;> simp
          rw [if_neg hns, if_pos hfc]
          refine ⟨?_, by simp, rfl⟩
          dsimp only
          rw [untetheredOps_cons, if_pos hp, List.eraseIdx_cons_zero]
      | k' + 1 =>
        rw [List.getElem?_cons_succ] at h
        have hx : idx + ((k' + 1 : Nat) : Int) = (idx + 1) + (k' : Int) := by push_cast; ring
        have hne : ¬(idx = idx + ((k' + 1 : Nat) : Int)) := by push_cast; omega
        rw [xOpsGo_cons, if_pos hp, if_neg hne, hx]
        obtain ⟨ih1, ih2⟩ := ih (idx + 1) k' tgt h
        constructor
        · intro hsp
          obtain ⟨e1, e2, e3⟩ := ih1 hsp
          refine ⟨?_, by simp [e2], by simp [e3]⟩
          dsimp only
          rw [untetheredOps_cons, if_pos hp, e1, untetheredOps_cons, if_pos hp,
            List.set_cons_succ]
        · intro hfc
          obtain ⟨e1, e2, e3⟩ := ih2 hfc
          refine ⟨?_, by simp [← e2], by simp [e3]⟩
          dsimp only
          rw [untetheredOps_cons, if_pos hp, e1, untetheredOps_cons, if_pos hp,
            List.eraseIdx_cons_succ]
    · rw [if_neg hp] at h
      rw [xOpsGo_cons, if_neg hp]
      obtain ⟨ih1, ih2⟩ := ih idx k tgt h
      constructor
      · intro hsp
        obtain ⟨e1, e2, e3⟩ := ih1 hsp
        refine ⟨?_, by simp [e2], by simp [e3]⟩
        dsimp only
        rw [untetheredOps_cons, if_neg hp, e1, untetheredOps_cons, if_neg hp]
      · intro hfc
        obtain ⟨e1, e2, e3⟩ := ih2 hfc
        refine ⟨?_, by simp [← e2], by simp [e3]⟩
        dsimp only
        rw [untetheredOps_cons, if_neg hp, e1, untetheredOps_cons, if_neg hp]

/-- C5: when the cursor addresses the `k`-th untethered entry, the `x`
action soft-cancels a `Pending`/`Sending` operation — the entry stays,
with status `Canceled`, and no operation is deleted — and deletes a
`Failed`/`Canceled` operation outright, shrinking the list by one. -/
theorem cancelOrRemove_untethered (jobs : List PrintJob) (ops : List PrintOperation)
    (k : Nat) (tgt : PrintOperation)
    (hk : (untetheredOps jobs ops)[k]? = some tgt) :
    ((tgt.status = PrintStatus.pending ∨ tgt.status = PrintStatus.sending) →
      untetheredOps jobs (xActive jobs ops ((jobs.length : Int) + (k : Int))).1
          = (untetheredOps jobs ops).set k { tgt with status := PrintStatus.canceled } ∧
        (xActive jobs ops ((jobs.length : Int) + (k : Int))).1.length = ops.length) ∧
    ((tgt.status = PrintStatus.failed ∨ tgt.status = PrintStatus.canceled) →
      untetheredOps jobs (xActive jobs ops ((jobs.length : Int) + (k : Int))).1
          = (untetheredOps jobs ops).eraseIdx k ∧
        (xActive jobs ops ((jobs.length : Int) + (k : Int))).1.length + 1 = ops.length) := by
  have hnotjob :
      ¬(0 ≤ (jobs.length : Int) + (k : Int) ∧
        (jobs.length : Int) + (k : Int) < (jobs.length : Int)) := by
    omega
  have hspec := xOpsGo_spec jobs ops (jobs.length : Int) k tgt hk
  constructor
  · intro hps
    obtain ⟨e1, e2, e3⟩ := hspec.1 hps.symm
    rw [xActive, if_neg hnotjob]
    dsimp only
    rw [e3]
    exact ⟨by simpa using e1, by simpa using e2⟩
  · intro hfc
    obtain ⟨e1, e2, e3⟩ := hspec.2 hfc
    rw [xActive, if_neg hnotjob]
    dsimp only
    rw [e3]
    split_ifs <;> exact ⟨by simpa using e1, by simpa using e2⟩

theorem cancelOrRemove_untethered_w :
    ((untetheredOps [] [opPendingA])[0]? = some opPendingA) ∧
    untetheredOps []
        (xActive [] [opPendingA] ((List.length ([] : List PrintJob) : Int) + ((0 : Nat) : Int))).1
      = (untetheredOps [] [opPendingA]).set 0 { opPendingA with status := PrintStatus.canceled } :=
  ⟨rfl, ((cancelOrRemove_untethered [] [opPendingA] 0 opPendingA rfl).1 (Or.inl rfl)).1⟩

theorem getLast?_mem_list {α : Type} {l : List α} {a : α} (h : l.getLast? = some a) :
    a ∈ l := by
  have hx : a ∈ l.getLast? := by rw [Option.mem_def]; exact h
  rcases List.mem_getLast?_eq_getLast hx with ⟨hne, heq⟩
  rw [heq]
  exact List.getLast_mem hne

theorem shown_implies_hasSystemJob (jobs : List PrintJob) (ops : List PrintOperation)
    (hnd : (ops.map PrintOperation.id).Nodup) (op : PrintOperation) (hop : op ∈ ops)
    (hshown : (shownOpIDs jobs ops).contains op.id = true) :
    hasSystemJob jobs op = true := by
  have hmem : op.id ∈ shownOpIDs jobs ops := by simpa using hshown
  rw [shownOpIDs, List.mem_filterMap] at hmem
  obtain ⟨job, hjob, hfm⟩ := hmem
  rw [Option.map_eq_some'] at hfm
  obtain ⟨op2, hop2, hid⟩ := hfm
  rw [printOpsByJobID] at hop2
  have hmem2 := getLast?_mem_list hop2
  rw [List.mem_filter] at hmem2
  obtain ⟨hop2mem, hpred⟩ := hmem2
  rw [Bool.and_eq_true, bne_iff_ne, beq_iff_eq] at hpred
  obtain ⟨hne, hjid⟩ := hpred
  have heq : op = op2 := List.inj_on_of_nodup_map hnd hop hop2mem hid.symm
  subst heq
  rw [hasSystemJob, Bool.and_eq_true, bne_iff_ne, List.any_eq_true]
  exact ⟨hne, job, hjob, by rw [beq_iff_eq, hjid]⟩

theorem renderEntries_eq_xEntries (jobs : List PrintJob) (ops : List PrintOperation)
    (hnd : (ops.map PrintOperation.id).Nodup) :
    renderEntries jobs ops = xEntries jobs ops := by
  unfold renderEntries xEntries untetheredOps
  congr 1
  congr 1
  apply List.filter_congr
  intro op hop
  by_cases hsj : hasSystemJob jobs op = true
  · have hsj2 : (op.systemJobID != "" && jobs.any (fun job => job.id == op.systemJobID))
        = true := hsj
    rw [hasSystemJob] at hsj ⊢
    simp [hsj2]
  · have hb : (shownOpIDs jobs ops).contains op.id = false := by
      rcases Bool.eq_false_or_eq_true ((shownOpIDs jobs ops).contains op.id) with h | h
      · exact absurd (shown_implies_hasSystemJob jobs ops hnd op hop h) hsj
      · exact h
    have hbm : op.id ∉ shownOpIDs jobs ops := by simpa using hb
    have hsj2 : (op.systemJobID != "" && jobs.any (fun job => job.id == op.systemJobID))
        = false := by
      rw [← hasSystemJob]
      exact Bool.not_eq_true _ |>.mp hsj
    rw [hasSystemJob]
    simp [hbm, hsj2]

/-- C1 (amended): provided the operations carry pairwise-distinct IDs —
the data model generates them unique for the process lifetime — the
count recomputed by `renderQueueContent`, the count of
`getActualJobCount`, the length of the `x` handler's walk, and the
entry-at-each-index mapping of the render loops and of the `x` handler
all agree for the same `jobs`/`ops` inputs. -/
theorem reconciled_paths_agree (jobs : List PrintJob) (ops : List PrintOperation)
    (hnd : (ops.map PrintOperation.id).Nodup) :
    renderTotalJobs jobs ops = getActualJobCount jobs ops ∧
    (xEntries jobs ops).length = getActualJobCount jobs ops ∧
    renderEntries jobs ops = xEntries jobs ops := by
  refine ⟨?_, ?_, renderEntries_eq_xEntries jobs ops hnd⟩
  · rw [renderTotalJobs_eq, getActualJobCount_eq]
  · rw [getActualJobCount_eq, xEntries, List.length_append, List.length_map, List.length_map]

/-- The spooler job with ID `"5"`. -/
def job5 : PrintJob := ⟨"5", "f", "", 0, ""⟩

/-- An operation with ID `"a"`, no system job. -/
def opDupNoSys : PrintOperation := ⟨"a", "", "", PrintStatus.pending, none, ""⟩

/-- A second operation also with ID `"a"`, tied to system job `"5"`. -/
def opDupSys5 : PrintOperation := ⟨"a", "", "", PrintStatus.pending, none, "5"⟩

theorem reconciled_paths_agree_w :
    ([opPendingA, opSent5].map PrintOperation.id).Nodup ∧
    renderEntries [job5] [opPendingA, opSent5] = xEntries [job5] [opPendingA, opSent5] :=
  ⟨by decide, (reconciled_paths_agree [job5] [opPendingA, opSent5] (by decide)).2.2⟩

/-- C1 counterexample: with duplicated operation IDs (`"a"` twice) the
render loop records the ID of the map winner in `shownOpIDs` and then
drops the unrelated untethered operation sharing that ID, so the
rendered entry list has only 1 entry while both counts and the `x`
handler walk see 2 — the three access paths disagree at index 1. -/
theorem render_drops_entry_on_dup_ids :
    renderEntries [job5] [opDupNoSys, opDupSys5] ≠ xEntries [job5] [opDupNoSys, opDupSys5] ∧
    (renderEntries [job5] [opDupNoSys, opDupSys5]).length = 1 ∧
    getActualJobCount [job5] [opDupNoSys, opDupSys5] = 2 ∧
    renderTotalJobs [job5] [opDupNoSys, opDupSys5] = 2 ∧
    (xEntries [job5] [opDupNoSys, opDupSys5]).length = 2 := by
  decide

/-- A spooler job with ID `"1"`. -/
def jobA : PrintJob := ⟨"1", "a", "", 0, ""⟩

/-- A spooler job with ID `"2"`. -/
def jobB : PrintJob := ⟨"2", "b", "", 0, ""⟩

/-- One staged file. -/
def stagedOne : StagedFile := ⟨"s", "/tmp/s", "/tmp", 0, 1, false⟩

/-- Queue pane, staged section, both cursors at 0, single layout. -/
def navStagedTop : NavState :=
  ⟨LayoutMode.single, ActivePane.queue, FileFocus.input, QueueSection.staged, 0, 0⟩

/-- C3 counterexample: in the staged section at cursor 0 with two
spooler jobs, single-step up lands on the last active entry
(cursor 1) while page-up lands on the first (cursor 0) — the boundary
fallthrough is not uniform. -/
theorem pgup_lands_differently :
    queuePgUp [jobA, jobB] navStagedTop ≠ queueUp [jobA, jobB] [] navStagedTop ∧
    (queuePgUp [jobA, jobB] navStagedTop).queueSection = QueueSection.active ∧
    (queuePgUp [jobA, jobB] navStagedTop).activeCursor = 0 ∧
    (queueUp [jobA, jobB] [] navStagedTop).queueSection = QueueSection.active ∧
    (queueUp [jobA, jobB] [] navStagedTop).activeCursor = 1 := by
  decide

/-- C3 (amended): page-down crossing the end of the active section lands
in the staged section at cursor 0 — exactly where single-step down at the
last entry lands — whenever staged files exist; with no staged files
page-down stays in the queue and clamps the active cursor to
`len(jobs) - 1` (single-step down would jump panes in split layouts).
Page-up crossing the start of the staged section lands in the active
section at cursor 0 when spooler jobs exist, whereas single-step up from
the staged top lands at the last reconciled entry (`count - 1`). -/
theorem page_step_boundary (jobs : List PrintJob) (ops : List PrintOperation)
    (staged : List StagedFile) (s : NavState) :
    (s.queueSection = QueueSection.active →
      s.activeCursor = (getActualJobCount jobs ops : Int) - 1 → staged ≠ [] →
      queuePgDown jobs ops staged s = queueDown jobs ops staged s) ∧
    (s.queueSection = QueueSection.staged → s.stagedCursor - 5 < 0 → jobs ≠ [] →
      queuePgUp jobs s =
        { s with queueSection := QueueSection.active, activeCursor := 0 }) ∧
    (s.queueSection = QueueSection.staged → s.stagedCursor = 0 →
      0 < (getActualJobCount jobs ops : Int) →
      queueUp jobs ops s =
        { s with queueSection := QueueSection.active,
                 activeCursor := (getActualJobCount jobs ops : Int) - 1 }) ∧
    (s.queueSection = QueueSection.active →
      (getActualJobCount jobs ops : Int) ≤ s.activeCursor + 5 → staged = [] →
      queuePgDown jobs ops staged s =
        { s with activeCursor := (jobs.length : Int) - 1 }) := by
  obtain ⟨lm, ap, ff, qs, ac, sc⟩ := s
  refine ⟨?_, ?_, ?_, ?_⟩ <;> intro h1 h2 h3 <;> subst h1
  · replace h2 : ac = (getActualJobCount jobs ops : Int) - 1 := h2
    have hlen : 0 < staged.length := List.length_pos.mpr h3
    simp only [queuePgDown, queueDown]
    split_ifs <;> first | rfl | omega
  · replace h2 : sc - 5 < 0 := h2
    have hlen : 0 < jobs.length := List.length_pos.mpr h3
    simp only [queuePgUp]
    split_ifs <;> first | rfl | omega
  · replace h2 : sc = 0 := h2
    simp only [queueUp]
    split_ifs <;> first | rfl | omega
  · replace h2 : (getActualJobCount jobs ops : Int) ≤ ac + 5 := h2
    subst h3
    simp only [queuePgDown, List.length_nil]
    split_ifs <;> first | rfl | omega

theorem page_step_boundary_w :
    navStagedTop.queueSection = QueueSection.staged ∧
    queuePgUp [jobA, jobB] navStagedTop
      = { navStagedTop with queueSection := QueueSection.active, activeCursor := 0 } :=
  ⟨rfl,
    (page_step_boundary [jobA, jobB] [] [] navStagedTop).2.1 rfl (by decide) (by decide)⟩

theorem setOffset_scrollOffset (s : ScrollableArea) (o : Int) :
    ({ s with scrollOffset := o } : ScrollableArea).scrollOffset = o := rfl

theorem setOffset_height (s : ScrollableArea) (o : Int) :
    ({ s with scrollOffset := o } : ScrollableArea).height = s.height := rfl

theorem setOffset_totalLines (s : ScrollableArea) (o : Int) :
    totalLines { s with scrollOffset := o } = totalLines s := rfl

theorem setOffset_sbThumbSize (s : ScrollableArea) (o : Int) :
    sbThumbSize { s with scrollOffset := o } = sbThumbSize s := rfl

theorem sbThumbSize_bounds (s : ScrollableArea) (hh : 4 < s.height) :
    1 ≤ sbThumbSize s ∧ sbThumbSize s ≤ s.height - 1 - 1 := by
  simp only [sbThumbSize, sbTrackHeight]
  split_ifs <;> constructor <;> omega

theorem sbThumbPos_eq (s : ScrollableArea) (hh : 4 < s.height)
    (htot : s.height < totalLines s) (h0 : 0 ≤ s.scrollOffset)
    (hmax : s.scrollOffset ≤ totalLines s - s.height) :
    sbThumbPos s =
      1 + Int.floor (((s.scrollOffset : ℚ) / ((totalLines s - s.height : Int) : ℚ)) *
        ((s.height - 1 - sbThumbSize s - 1 : Int) : ℚ)) := by
  have hts := sbThumbSize_bounds s hh
  have hM : (0 : Int) < totalLines s - s.height := by omega
  have hMq : (0 : ℚ) < ((totalLines s - s.height : Int) : ℚ) := by exact_mod_cast hM
  have hKq : (0 : ℚ) ≤ ((s.height - 1 - sbThumbSize s - 1 : Int) : ℚ) := by
    have hK : (0 : Int) ≤ s.height - 1 - sbThumbSize s - 1 := by omega
    exact_mod_cast hK
  simp only [sbThumbPos]
  set q : ℚ := ((s.scrollOffset : ℚ) / ((totalLines s - s.height : Int) : ℚ)) *
      ((s.height - 1 - sbThumbSize s - 1 : Int) : ℚ) with hq
  have hq0 : (0 : ℚ) ≤ q := by
    rw [hq]
    exact mul_nonneg (div_nonneg (by exact_mod_cast h0) (le_of_lt hMq)) hKq
  have hqK : q ≤ ((s.height - 1 - sbThumbSize s - 1 : Int) : ℚ) := by
    rw [hq]
    have hd1 : (s.scrollOffset : ℚ) / ((totalLines s - s.height : Int) : ℚ) ≤ 1 := by
      rw [div_le_one hMq]
      exact_mod_cast hmax
    calc ((s.scrollOffset : ℚ) / ((totalLines s - s.height : Int) : ℚ)) *
          ((s.height - 1 - sbThumbSize s - 1 : Int) : ℚ)
        ≤ 1 * ((s.height - 1 - sbThumbSize s - 1 : Int) : ℚ) :=
          mul_le_mul_of_nonneg_right hd1 hKq
      _ = ((s.height - 1 - sbThumbSize s - 1 : Int) : ℚ) := one_mul _
  rw [ratTrunc, if_neg (not_lt.mpr hq0)]
  have hfl0 : 0 ≤ Int.floor q := Int.floor_nonneg.mpr hq0
  have hflK : Int.floor q ≤ s.height - 1 - sbThumbSize s - 1 := by
    calc Int.floor q ≤ Int.floor ((s.height - 1 - sbThumbSize s - 1 : Int) : ℚ) :=
          Int.floor_le_floor hqK
      _ = s.height - 1 - sbThumbSize s - 1 := Int.floor_intCast _
  rw [if_neg (by omega : ¬(1 + Int.floor q < 1)),
    if_neg (by omega : ¬(1 + Int.floor q + sbThumbSize s > s.height - 1))]

/-- C9: with an overflowing content (`totalLines > height`) and
`height > 4`, the thumb position computed by `getScrollbarChar` is
monotone non-decreasing in the offset, sits at the top of the track
(line 1) at offset 0, and its bottom edge reaches the bottom of the
track (line `height - 1`) at `offset = maxOffset`. -/
theorem scrollbar_thumb_monotone (s : ScrollableArea) (o1 o2 : Int)
    (hh : 4 < s.height) (htot : s.height < totalLines s)
    (h1 : 0 ≤ o1) (h12 : o1 ≤ o2) (h2 : o2 ≤ totalLines s - s.height) :
    sbThumbPos { s with scrollOffset := o1 } ≤ sbThumbPos { s with scrollOffset := o2 } ∧
    sbThumbPos { s with scrollOffset := 0 } = 1 ∧
    sbThumbPos { s with scrollOffset := totalLines s - s.height } + sbThumbSize s
      = s.height - 1 := by
  have hts := sbThumbSize_bounds s hh
  have hM : (0 : Int) < totalLines s - s.height := by omega
  have hMq : (0 : ℚ) < ((totalLines s - s.height : Int) : ℚ) := by exact_mod_cast hM
  have hKq : (0 : ℚ) ≤ ((s.height - 1 - sbThumbSize s - 1 : Int) : ℚ) := by
    have hK : (0 : Int) ≤ s.height - 1 - sbThumbSize s - 1 := by omega
    exact_mod_cast hK
  have e1 := sbThumbPos_eq { s with scrollOffset := o1 } hh htot h1 (le_trans h12 h2)
  have e2 := sbThumbPos_eq { s with scrollOffset := o2 } hh htot (le_trans h1 h12) h2
  have e0 := sbThumbPos_eq { s with scrollOffset := 0 } hh htot le_rfl (le_of_lt hM)
  have eM := sbThumbPos_eq { s with scrollOffset := totalLines s - s.height } hh htot
    (le_of_lt hM) le_rfl
  simp only [setOffset_scrollOffset, setOffset_height, setOffset_totalLines,
    setOffset_sbThumbSize] at e1 e2 e0 eM
  refine ⟨?_, ?_, ?_⟩
  · rw [e1, e2]
    have hd : ((o1 : Int) : ℚ) / ((totalLines s - s.height : Int) : ℚ)
        ≤ ((o2 : Int) : ℚ) / ((totalLines s - s.height : Int) : ℚ) :=
      div_le_div_of_nonneg_right (by exact_mod_cast h12) (le_of_lt hMq)
    have := Int.floor_le_floor (mul_le_mul_of_nonneg_right hd hKq)
    omega
  · rw [e0]
    simp
  · rw [eM]
    have hd : ((totalLines s - s.height : Int) : ℚ) / ((totalLines s - s.height : Int) : ℚ)
        = 1 := div_self (ne_of_gt hMq)
    rw [hd, one_mul, Int.floor_intCast]
    omega

/-- A 30-line viewport of height 10 (track lines 1–8, maxOffset 20). -/
def vp30 : ScrollableArea := ⟨List.replicate 30 "", 20, 10, 0, true⟩

theorem scrollbar_thumb_monotone_w :
    (4 : Int) < vp30.height ∧ vp30.height < totalLines vp30 ∧
    sbThumbPos { vp30 with scrollOffset := 5 } ≤ sbThumbPos { vp30 with scrollOffset := 13 } ∧
    sbThumbPos { vp30 with scrollOffset := 0 } = 1 ∧
    sbThumbPos { vp30 with scrollOffset := totalLines vp30 - vp30.height } + sbThumbSize vp30
      = vp30.height - 1 := by
  have h := scrollbar_thumb_monotone vp30 5 13 (by decide) (by decide) (by decide) (by decide)
    (by decide)
  exact ⟨by decide, by decide, h.1, h.2.1, h.2.2⟩

theorem mem_markSet (marked : List String) (q p : String) :
    p ∈ markSet marked q ↔ p ∈ marked ∨ p = q := by
  rw [markSet]
  split_ifs with h
  · have hq : q ∈ marked := by simpa using h
    constructor
    · exact fun hp => Or.inl hp
    · rintro (hp | rfl)
      · exact hp
      · exact hq
  · simp

theorem mem_markDel (marked : List String) (q p : String) :
    p ∈ markDel marked q ↔ p ∈ marked ∧ p ≠ q := by
  simp [markDel]

theorem eraseP_eq_filter_of_nodup :
    ∀ (l : List StagedFile) (p : String),
      ((l.map StagedFile.path).Nodup) →
      l.eraseP (fun f => f.path == p) = l.filter (fun f => f.path != p)
  | [], _, _ => rfl
  | f :: rest, p, hnd => by
    rw [List.map_cons, List.nodup_cons] at hnd
    obtain ⟨hnotin, hndrest⟩ := hnd
    by_cases hf : f.path = p
    · rw [List.eraseP_cons_of_pos (by simp [hf]), List.filter_cons_of_neg (by simp [hf])]
      rw [List.filter_eq_self.mpr]
      intro g hg
      have : g.path ≠ p := by
        intro hgp
        apply hnotin
        rw [hf, ← hgp]
        exact List.mem_map_of_mem _ hg
      simp [this]
    · rw [List.eraseP_cons_of_neg (by simp [hf]), List.filter_cons_of_pos (by simp [hf]),
        eraseP_eq_filter_of_nodup rest p hndrest]

theorem removeLastStaged_eq_filter (staged : List StagedFile) (p : String)
    (hnd : (staged.map StagedFile.path).Nodup) :
    removeLastStaged staged p = staged.filter (fun f => f.path != p) := by
  rw [removeLastStaged]
  have hrev : ((staged.reverse).map StagedFile.path).Nodup := by
    rw [List.map_reverse]
    exact List.nodup_reverse.mpr hnd
  rw [eraseP_eq_filter_of_nodup staged.reverse p hrev, List.filter_reverse,
    List.reverse_reverse]

theorem consistent_unmark (st : StagingState) (hC : StagingConsistent st) (path : String) :
    StagingConsistent
      ⟨removeLastStaged st.stagedFiles path, markDel st.markedFiles path⟩ := by
  obtain ⟨h1, h2⟩ := hC
  rw [removeLastStaged_eq_filter _ _ h2]
  constructor
  · intro p
    rw [mem_markDel]
    constructor
    · rintro ⟨f, hf, rfl⟩
      rw [List.mem_filter] at hf
      obtain ⟨hfmem, hfp⟩ := hf
      have hne : f.path ≠ path := by simpa using hfp
      exact ⟨(h1 f.path).mp ⟨f, hfmem, rfl⟩, hne⟩
    · rintro ⟨hp, hne⟩
      obtain ⟨f, hf, rfl⟩ := (h1 p).mpr hp
      exact ⟨f, List.mem_filter.mpr ⟨hf, by simpa using hne⟩, rfl⟩
  · exact ((List.filter_sublist _).map StagedFile.path).nodup h2

theorem consistent_mark (st : StagingState) (hC : StagingConsistent st) (f : StagedFile)
    (hnm : f.path ∉ st.markedFiles) :
    StagingConsistent ⟨st.stagedFiles ++ [f], markSet st.markedFiles f.path⟩ := by
  obtain ⟨h1, h2⟩ := hC
  have hnotstaged : f.path ∉ st.stagedFiles.map StagedFile.path := by
    intro hmem
    rw [List.mem_map] at hmem
    obtain ⟨g, hg, hgp⟩ := hmem
    exact hnm ((h1 f.path).mp ⟨g, hg, hgp⟩)
  constructor
  · intro p
    rw [mem_markSet]
    constructor
    · rintro ⟨g, hg, rfl⟩
      rw [List.mem_append] at hg
      rcases hg with hg | hg
      · exact Or.inl ((h1 g.path).mp ⟨g, hg, rfl⟩)
      · rw [List.mem_singleton] at hg
        subst hg
        exact Or.inr rfl
    · rintro (hp | rfl)
      · obtain ⟨g, hg, rfl⟩ := (h1 p).mpr hp
        exact ⟨g, List.mem_append_left _ hg, rfl⟩
      · exact ⟨f, List.mem_append_right _ (List.mem_singleton_self f), rfl⟩
  · rw [List.map_append, List.nodup_append]
    refine ⟨h2, by simp, ?_⟩
    intro a ha hmem
    simp only [List.map_cons, List.map_nil, List.mem_singleton] at hmem
    rw [hmem] at ha
    exact hnotstaged ha

theorem consistent_removePath (st : StagingState) (hC : StagingConsistent st) (path : String) :
    StagingConsistent
      ⟨st.stagedFiles.filter (fun f => f.path ≠ path), markDel st.markedFiles path⟩ := by
  obtain ⟨h1, h2⟩ := hC
  constructor
  · intro p
    rw [mem_markDel]
    constructor
    · rintro ⟨f, hf, rfl⟩
      rw [List.mem_filter, decide_eq_true_eq] at hf
      exact ⟨(h1 f.path).mp ⟨f, hf.1, rfl⟩, hf.2⟩
    · rintro ⟨hp, hne⟩
      obtain ⟨f, hf, rfl⟩ := (h1 p).mpr hp
      exact ⟨f, List.mem_filter.mpr ⟨hf, by simp [hne]⟩, rfl⟩
  · exact ((List.filter_sublist _).map StagedFile.path).nodup h2

theorem mem_foldl_markDel :
    ∀ (staged : List StagedFile) (marked : List String) (p : String),
      p ∈ staged.foldl (fun mk f => markDel mk f.path) marked ↔
        p ∈ marked ∧ ∀ f ∈ staged, p ≠ f.path
  | [], marked, p => by simp
  | f :: rest, marked, p => by
    rw [List.foldl_cons, mem_foldl_markDel rest (markDel marked f.path) p, mem_markDel]
    constructor
    · rintro ⟨⟨hm, hne⟩, hall⟩
      refine ⟨hm, fun g hg => ?_⟩
      rcases List.mem_cons.mp hg with rfl | hg2
      · exact hne
      · exact hall g hg2
    · rintro ⟨hm, hall⟩
      exact ⟨⟨hm, hall f (List.mem_cons_self f rest)⟩,
        fun g hg => hall g (List.mem_cons_of_mem f hg)⟩

theorem consistent_clear (st : StagingState) (hC : StagingConsistent st) :
    StagingConsistent
      ⟨[], st.stagedFiles.foldl (fun mk f => markDel mk f.path) st.markedFiles⟩ := by
  obtain ⟨h1, _⟩ := hC
  constructor
  · intro p
    constructor
    · rintro ⟨f, hf, _⟩
      exact absurd hf (List.not_mem_nil f)
    · intro hp
      exfalso
      rw [mem_foldl_markDel] at hp
      obtain ⟨hm, hall⟩ := hp
      obtain ⟨f, hf, rfl⟩ := (h1 p).mpr hm
      exact absurd rfl (hall f hf)
  · simp

theorem consistent_deselect_all (st : StagingState) (hC : StagingConsistent st) :
    StagingConsistent
      ⟨st.stagedFiles.filter (fun f => !st.markedFiles.contains f.path), []⟩ := by
  obtain ⟨h1, _⟩ := hC
  have hempty : st.stagedFiles.filter (fun f => !st.markedFiles.contains f.path) = [] := by
    rw [List.filter_eq_nil_iff]
    intro f hf
    have hmem : f.path ∈ st.markedFiles := (h1 f.path).mp ⟨f, hf, rfl⟩
    simp [hmem]
  rw [hempty]
  constructor
  · intro p
    constructor
    · rintro ⟨f, hf, _⟩
      exact absurd hf (List.not_mem_nil f)
    · intro hp
      exact absurd hp (List.not_mem_nil p)
  · simp

theorem foldl_preserves {σ α : Type} (P : σ → Prop) (step : σ → α → σ)
    (hstep : ∀ s a, P s → P (step s a)) :
    ∀ (l : List α) (s : σ), P s → P (l.foldl step s)
  | [], _, hs => hs
  | a :: l, s, hs => foldl_preserves P step hstep l (step s a) (hstep s a hs)
/-- C10: every staging key-event handler — space (mark/stage, select-all
toggle, directory toggle), `X` clear-all, `P` submit-all, and `x` in the
files pane — preserves staging consistency: a path has a staged entry iff
it is marked, and no path is staged twice. -/
theorem staging_events_consistent (ops : List PrintOperation) (st : StagingState)
    (e : StageEvent) (hC : StagingConsistent st) :
    StagingConsistent (applyStageEvent ops st e) := by
  cases e with
  | clearAll => exact consistent_clear st hC
  | submitAll => exact consistent_clear st hC
  | unmarkX files fileCursor =>
    rw [applyStageEvent, applyUnmarkX]
    by_cases h1 : 0 ≤ fileCursor ∧ fileCursor < (files.length : Int)
    · rw [if_pos h1]
      cases hfile : files[fileCursor.toNat]? with
      | none => exact hC
      | some file =>
        dsimp only
        by_cases h2 : (file.isPrintable && st.markedFiles.contains file.path) = true
        · rw [if_pos h2]
          exact consistent_unmark st hC file.path
        · rw [if_neg h2]
          exact hC
    · rw [if_neg h1]
      exact hC
  | spaceKey files fileCursor entries currentDir =>
    rw [applyStageEvent, applySpace]
    by_cases h1 : 0 ≤ fileCursor ∧ fileCursor < (files.length : Int)
    · rw [if_pos h1]
      cases hfile : files[fileCursor.toNat]? with
      | none => exact hC
      | some file =>
        dsimp only
        by_cases hT : file.path = "TOGGLE_ALL"
        · rw [if_pos hT]
          by_cases hAll : (files.all fun f => !f.isPrintable || st.markedFiles.contains f.path)
              = true
          · rw [if_pos hAll]
            exact consistent_deselect_all st hC
          · rw [if_neg hAll]
            refine foldl_preserves StagingConsistent _ ?_ files st hC
            intro acc f hacc
            split_ifs with hcond
            · exact consistent_mark acc hacc (newStagedFile f.name f.path currentDir f.size)
                (fun hm => hcond.2 (by simpa using hm))
            · exact hacc
        · rw [if_neg hT]
          by_cases hD : file.isDir = true
          · rw [if_pos hD]
            by_cases hS1 : (getDirectoryStatus st.markedFiles ops file.path).1 > 0
            · rw [if_pos hS1]
              by_cases hS2 : (getDirectoryStatus st.markedFiles ops file.path).2.1
                  = (getDirectoryStatus st.markedFiles ops file.path).1
              · rw [if_pos hS2]
                refine foldl_preserves StagingConsistent _ ?_ entries st hC
                intro acc en hacc
                split_ifs with hcond
                · exact hacc
                · exact consistent_removePath acc hacc (file.path ++ "/" ++ en.name)
              · rw [if_neg hS2]
                refine foldl_preserves StagingConsistent _ ?_ entries st hC
                intro acc en hacc
                split_ifs with hcond
                · exact consistent_mark acc hacc
                    (newStagedFile en.name (file.path ++ "/" ++ en.name) file.path en.size)
                    (fun hm => hcond.2.2 (by simpa using hm))
                · exact hacc
            · rw [if_neg hS1]
              exact hC
          · rw [if_neg hD]
            by_cases hP : file.isPrintable = true
            · rw [if_pos hP]
              by_cases hM : st.markedFiles.contains file.path = true
              · rw [if_pos hM]
                exact consistent_unmark st hC file.path
              · rw [if_neg hM]
                exact consistent_mark st hC
                  (newStagedFile file.name file.path currentDir file.size)
                  (fun hm => hM (by simpa using hm))
            · rw [if_neg hP]
              exact hC
    · rw [if_neg h1]
      exact hC

/-- A one-file staging state: `/tmp/s` staged and marked. -/
theorem stagingOneConsistent : StagingConsistent ⟨[stagedOne], ["/tmp/s"]⟩ := by
  constructor
  · intro p
    simp [stagedOne, eq_comm]
  · simp

theorem staging_events_consistent_w :
    StagingConsistent (⟨[stagedOne], ["/tmp/s"]⟩ : StagingState) ∧
    StagingConsistent
      (applyStageEvent [] (⟨[stagedOne], ["/tmp/s"]⟩ : StagingState) StageEvent.clearAll) :=
  ⟨stagingOneConsistent,
    staging_events_consistent [] _ StageEvent.clearAll stagingOneConsistent⟩
